import Mathlib

/-!
Verification of the persona decision pipeline of the focus_group repository
(`backend/simulation.py`, `backend/llm_service.py`).

The pipeline is embedded shallowly:
* Oracle (LLM) outputs are inputs to the embedded functions.  A call site's
  `try: json.loads(...) except: fallback` is modelled by an `Option` of a
  record of the string-valued JSON fields the code reads (`none` = the parse
  raised); `dict.get(k, d)` becomes `Option.getD`.
* Python float arithmetic in the metric computation is modelled exactly by
  an IEEE-754 binary64 round-to-nearest-even model over `ℚ` (valid for the
  normal, non-overflowing range used here, namely [0, 100]).
* `hash(p.id)` (randomized per process in Python) is an arbitrary function
  `String → ℤ` passed as a parameter.

Every definition is executable and kernel-reducible, so concrete runs are
settled by `decide`; the `Rat` arithmetic definitions are locally re-marked
semireducible for that purpose only (their values are unchanged).
-/

attribute [local semireducible] Rat.mul Rat.inv Rat.add Rat.sub

/-- Python's `str.lower()` on the ASCII range (every string the pipeline
compares after lowering is ASCII). -/
def pyLower (s : String) : String :=
  ⟨s.data.map Char.toLower⟩

/-- Modelled from the spec (models.py is not in src/): a persona record.
Only the identifier takes part in any control flow (the forward heuristic);
the remaining fields are prompt material. -/
structure Persona where
  id : String
  name : String
  role : String
  company : String
  psychographics : String
  pastBehavior : String
  deriving Repr, DecidableEq, Inhabited

/-- Modelled from the spec (models.py is not in src/): one persona's outcome. -/
structure Response where
  persona : Persona
  action : String
  sentiment : String
  comment : String
  detailedReasoning : String
  deriving Repr, DecidableEq, Inhabited

/-- Modelled from the spec (models.py is not in src/): the seven integer
percentage rates. -/
structure Metrics where
  openRate : ℕ
  clickRate : ℕ
  replyRate : ℕ
  spamRate : ℕ
  ignoreRate : ℕ
  forwardRate : ℕ
  readRate : ℕ
  deriving Repr, DecidableEq

/-- Modelled from the spec (models.py is not in src/): one qualitative insight. -/
structure Insight where
  type : String
  title : String
  description : String
  deriving Repr, DecidableEq

/-- Modelled from the spec (models.py is not in src/): the terminal artifact of a
run.  The wall-clock derived `id` and `timestamp` fields are real-time values
outside the embedding and are omitted; no claim mentions them. -/
structure SimulationResult where
  metrics : Metrics
  insights : List Insight
  responses : List Response
  deriving Repr, DecidableEq

/-- The two event kinds yielded by `run_simulation_stream`. -/
inductive Event where
  | progress (current : ℕ) (total : ℕ)
  | result (data : SimulationResult)
  deriving Repr, DecidableEq

/-- The string-valued JSON fields read from the Phase A (inbox scan) oracle
response (`res_a` in `_simulate_single_persona`); `none` = key absent. -/
structure ScanJson where
  action : Option String
  reason : Option String
  thought_process : Option String
  deriving Repr, DecidableEq

/-- The string-valued JSON fields read from the Phase C (take action) oracle
response (`res_c` in `_simulate_single_persona`); `none` = key absent. -/
structure ActJson where
  final_action : Option String
  reply_text : Option String
  internal_monologue : Option String
  deriving Repr, DecidableEq

/-- simulation.py line 101: the dict substituted when the Phase A
predict/strip/`json.loads` block raises. -/
def scanFallback : ScanJson :=
  { action := some "ignored"
    reason := some "Failed to parse decision"
    thought_process := some "Error parsing LLM response" }

/-- simulation.py line 124: the dict substituted when the Phase C
predict/strip/`json.loads` block raises. -/
def actFallback : ActJson :=
  { final_action := some "opened"
    reply_text := none
    internal_monologue := some "Undecided" }

/-- Python's `x or "No comment"` on line 137: `None` and the empty string are
falsy and are replaced by the placeholder. -/
def orNoComment : Option String → String
  | none => "No comment"
  | some s => if s = "" then "No comment" else s

/-- simulation.py lines 103-105: lower-case the `action` value (default
`"ignored"`) and clamp anything outside the three scan outcomes to
`"ignored"`. -/
def clampScanAction (res_a : ScanJson) : String :=
  let a := pyLower (res_a.action.getD "ignored")
  if a = "opened" ∨ a = "ignored" ∨ a = "spam" then a else "ignored"

/-- simulation.py lines 126-128: lower-case `final_action` (default
`"opened"`); only `"clicked"` or `"replied"` may replace the current action. -/
def overrideAction (res_c : ActJson) (cur : String) : String :=
  let fa := pyLower (res_c.final_action.getD "opened")
  if fa = "clicked" ∨ fa = "replied" then fa else cur

/-- `_simulate_single_persona` (simulation.py lines 88-139), with the two
oracle-call-and-parse outcomes supplied as inputs (`none` models the
`except` branch of the corresponding `try`).  The relevance score feeds only
the prompt text and has no effect on the returned `Response`, so it is not a
parameter. -/
def simulate_single_persona (persona : Persona)
    (scanRes : Option ScanJson) (actRes : Option ActJson) : Response :=
  let res_a := scanRes.getD scanFallback
  let action := clampScanAction res_a
  let reason := res_a.reason.getD "Not relevant"
  let detailed_reasoning := res_a.thought_process.getD reason
  let comment : Option String := some reason
  if action = "opened" then
    let res_c := actRes.getD actFallback
    let action := overrideAction res_c action
    let comment :=
      if action = "replied" then res_c.reply_text
      else some (res_c.internal_monologue.getD reason)
    let detailed_reasoning := res_c.internal_monologue.getD reason
    { persona := persona, action := action, sentiment := "neutral"
      comment := orNoComment comment, detailedReasoning := detailed_reasoning }
  else
    { persona := persona, action := action, sentiment := "neutral"
      comment := orNoComment comment, detailedReasoning := detailed_reasoning }

/-! ## Lexical similarity fallback (`EmbeddingService._keyword_similarity`) -/

/-- Splitting a character list at whitespace characters, accumulating the
current (reversed) chunk; chunks between adjacent separators are empty and
are discarded by `pyTokens`. -/
def wsSplit : List Char → List Char → List (List Char)
  | [], cur => [cur.reverse]
  | c :: rest, cur =>
      if c.isWhitespace then cur.reverse :: wsSplit rest []
      else wsSplit rest (c :: cur)

/-- Python `text.lower().split()`: lower-case, split on whitespace runs,
no empty tokens. -/
def pyTokens (text : String) : List String :=
  ((wsSplit (pyLower text).data []).map (fun l => String.mk l)).filter (fun w => w ≠ "")

/-- llm_service.py line 108: the fixed stop-word set. -/
def stop_words : Finset String :=
  (["the", "a", "an", "and", "or", "but", "in", "on", "at", "to", "for",
    "of", "with"] : List String).toFinset

/-- The token set of one text after stop-word removal
(llm_service.py lines 104-110). -/
def cleanWords (text : String) : Finset String :=
  (pyTokens text).toFinset \ stop_words

/-- `EmbeddingService._keyword_similarity` (llm_service.py lines 102-118):
Jaccard similarity of the cleaned token sets, `0` when either set is empty.
The single `len/len` float division is exact here (modelled in `ℚ`); every
property claimed of it is invariant under correct rounding. -/
def keyword_similarity (text1 text2 : String) : ℚ :=
  let words1 := cleanWords text1
  let words2 := cleanWords text2
  if words1 = ∅ ∨ words2 = ∅ then 0
  else ((words1 ∩ words2).card : ℚ) / ((words1 ∪ words2).card : ℚ)

/-! ## Exact model of Python (IEEE-754 binary64) float arithmetic

`run_simulation_stream` computes every rate as `int((count / total) * 100)`:
two correctly rounded binary64 operations (a division and a multiplication)
followed by truncation toward zero.  All intermediate values lie in
`[0, 100]`, far inside the normal range of binary64, so the arithmetic is
modelled exactly over `ℚ` by round-to-nearest-even at 53 significant bits. -/

/-- Round a rational to the nearest integer, ties to even. -/
def rhe (x : ℚ) : ℤ :=
  let f := ⌊x⌋
  let r := x - f
  if r < 1 / 2 then f
  else if 1 / 2 < r then f + 1
  else if f % 2 = 0 then f else f + 1

/-- `2 ^ e` over `ℚ` for an integer exponent. -/
def pow2 (e : ℤ) : ℚ :=
  if 0 ≤ e then ((2 ^ e.toNat : ℕ) : ℚ) else 1 / ((2 ^ (-e).toNat : ℕ) : ℚ)

/-- Floor base-2 logarithm by binary search on the exponent: with
`2 ^ lo ≤ n < 2 ^ hi` and `hi - lo ≤ 2 ^ fuel`, narrows to the unique
exponent `e` with `2 ^ e ≤ n < 2 ^ (e + 1)`. -/
def log2Aux (n : ℕ) : ℕ → ℕ → ℕ → ℕ
  | 0, lo, _ => lo
  | fuel + 1, lo, hi =>
      if hi ≤ lo + 1 then lo
      else
        let mid := (lo + hi) / 2
        if n < 2 ^ mid then log2Aux n fuel lo mid else log2Aux n fuel mid hi

/-- Floor base-2 logarithm of a positive natural (0 for 0): binary search for
arguments below `2 ^ 256` (every number the pipeline produces), `Nat.log2`
beyond. -/
def natLog2 (n : ℕ) : ℕ :=
  if n < 2 ^ 256 then log2Aux n 8 0 256 else Nat.log2 n

/-- The binade exponent of a positive rational: the unique `e` with
`2 ^ e ≤ q < 2 ^ (e + 1)`, located from `natLog2` of numerator and
denominator and corrected by direct comparison. -/
def qlog2 (q : ℚ) : ℤ :=
  let e0 : ℤ := (natLog2 q.num.toNat : ℤ) - (natLog2 q.den : ℤ)
  if q < pow2 e0 then e0 - 1
  else if q < pow2 (e0 + 1) then e0 else e0 + 1

/-- Correctly rounded binary64 value (round to nearest, ties to even) of a
rational in the positive normal range; nonpositive inputs map to `0` (the only
nonpositive value arising in the pipeline). -/
def fl (q : ℚ) : ℚ :=
  if q ≤ 0 then 0
  else
    let e := qlog2 q
    (rhe (q * pow2 (52 - e)) : ℚ) * pow2 (e - 52)

/-- One rate of the `Metrics` built at simulation.py lines 63-71:
`int((count / total) * 100) if total > 0 else 0`, with the division and the
multiplication performed in binary64 and `int` truncating toward zero. -/
def pyRate (count total : ℕ) : ℕ :=
  if 0 < total then (⌊fl (fl ((count : ℚ) / (total : ℚ)) * 100)⌋).toNat else 0

/-! ## Insight generation (`_generate_insights`, simulation.py lines 141-208) -/

/-- One element of the parsed `data["insights"]` list.  `good` is a dict whose
three read fields, when present, are strings (`none` = key absent); `bad` is
any item on which the loop body raises (a non-dict item, or a non-string
`type` value, on which `.get`/`.lower()` raises). -/
inductive InsightItem where
  | good (type : Option String) (title : Option String) (description : Option String)
  | bad
  deriving Repr, DecidableEq

/-- The outcome of the oracle path of `_generate_insights`, up to the point
where the code branches: the `predict` call (or anything before the regex)
raised; the regex found no `\x7b...\x7d` substring; both `json.loads` and
`ast.literal_eval` failed; parsing succeeded but there is no `"insights"`
key; or an `"insights"` list of items was obtained. -/
inductive InsightOutcome where
  | raised
  | noJsonMatch
  | parseFailed
  | parsedNoKey
  | parsedItems (items : List InsightItem)
  deriving Repr, DecidableEq

/-- simulation.py lines 167-171: lower-case the `type` (default `"warning"`),
map `issue` to `negative`, clamp anything else outside the three insight
types to `warning`. -/
def normalizeInsightType (ty : Option String) : String :=
  let t := pyLower (ty.getD "warning")
  if t = "issue" then "negative"
  else if t = "positive" ∨ t = "negative" ∨ t = "warning" then t
  else "warning"

/-- The `for item in data["insights"]` loop (simulation.py lines 166-177):
append converted items in order; a `bad` item raises, ending the loop with
the items accumulated so far (`false` = the loop was interrupted). -/
def processItems : List InsightItem → List Insight → List Insight × Bool
  | [], acc => (acc, true)
  | .good ty ti de :: rest, acc =>
      processItems rest
        (acc ++ [{ type := normalizeInsightType ty, title := ti.getD "Insight",
                   description := de.getD "" }])
  | .bad :: _, acc => (acc, false)

/-- The fallback heuristics of simulation.py lines 188-207 as appended to an
(empty or partial) insight list: one open-rate insight when the open rate is
below 20 (negative) or above 40 (positive), then one spam warning when the
spam rate exceeds 10. -/
def heuristicInsights (metrics : Metrics) : List Insight :=
  (if metrics.openRate < 20 then
    [{ type := "negative", title := "Низкий Open Rate",
       description := "Тема письма недостаточно привлекательна для этой аудитории." }]
   else if metrics.openRate > 40 then
    [{ type := "positive", title := "Высокий Open Rate",
       description := "Тема письма работает отлично." }]
   else [])
  ++ (if metrics.spamRate > 10 then
    [{ type := "warning", title := "Высокий риск спама",
       description := "Многие получатели отметили письмо как спам. Проверьте стоп-слова." }]
   else [])

/-- `_generate_insights` (simulation.py lines 141-208) given the oracle-path
outcome.  When the item loop completes, the oracle insights are returned as
is (even an empty list); any failure falls through to the heuristics, which
are appended to whatever was already accumulated in `insights`. -/
def generate_insights (outcome : InsightOutcome) (metrics : Metrics) : List Insight :=
  match outcome with
  | .raised => heuristicInsights metrics
  | .noJsonMatch => heuristicInsights metrics
  | .parseFailed => heuristicInsights metrics
  | .parsedNoKey => heuristicInsights metrics
  | .parsedItems items =>
      match processItems items [] with
      | (acc, true) => acc
      | (acc, false) => acc ++ heuristicInsights metrics

/-! ## Orchestrator (`run_simulation_stream`, simulation.py lines 22-86) -/

/-- One persona together with the oracle outcomes its two pipeline stages
would observe (the Phase C outcome is consulted only when the scan opens). -/
structure PersonaRun where
  persona : Persona
  scanRes : Option ScanJson
  actRes : Option ActJson

/-- The seven running counters of simulation.py lines 26-32. -/
structure Counts where
  open_count : ℕ
  click_count : ℕ
  reply_count : ℕ
  spam_count : ℕ
  ignore_count : ℕ
  read_count : ℕ
  forward_count : ℕ
  deriving Repr, DecidableEq

/-- All counters start at zero (simulation.py lines 26-32). -/
def initCounts : Counts := ⟨0, 0, 0, 0, 0, 0, 0⟩

/-- The per-response counter updates of simulation.py lines 40-53.  `hash` is
Python's (process-randomized) string hash, so it is a parameter; Python `%`
on a positive modulus is `Int.emod`'s nonnegative remainder. -/
def updateCounts (hash : String → ℤ) (c : Counts) (p : Persona) (r : Response) : Counts :=
  let c := if r.action = "opened" then { c with open_count := c.open_count + 1 } else c
  let c := if r.action = "clicked" then { c with click_count := c.click_count + 1 } else c
  let c := if r.action = "replied" then { c with reply_count := c.reply_count + 1 } else c
  let c := if r.action = "spam" then { c with spam_count := c.spam_count + 1 } else c
  let c := if r.action = "ignored" then { c with ignore_count := c.ignore_count + 1 } else c
  let c := if r.action = "opened" ∨ r.action = "clicked" ∨ r.action = "replied" then
    { c with read_count := c.read_count + 1 } else c
  let c := if r.action = "clicked" ∧ hash p.id % 5 = 0 then
    { c with forward_count := c.forward_count + 1 } else c
  c

/-- The `for i, p in enumerate(personas)` loop of simulation.py lines 36-60,
processing the remaining personas from 0-based index `i` with counters `c`:
returns the responses appended, the final counters, and the progress events
yielded (one per persona, carrying the 1-based index and the total). -/
def simLoop (hash : String → ℤ) (total : ℕ) :
    List PersonaRun → ℕ → Counts → List Response × Counts × List Event
  | [], _, c => ([], c, [])
  | pr :: rest, i, c =>
      let response := simulate_single_persona pr.persona pr.scanRes pr.actRes
      let c1 := updateCounts hash c pr.persona response
      let r := simLoop hash total rest (i + 1) c1
      (response :: r.1, r.2.1, Event.progress (i + 1) total :: r.2.2)

/-- The `Metrics(...)` construction of simulation.py lines 63-71. -/
def mkMetrics (c : Counts) (total : ℕ) : Metrics :=
  { openRate := pyRate c.open_count total
    clickRate := pyRate c.click_count total
    replyRate := pyRate c.reply_count total
    spamRate := pyRate c.spam_count total
    ignoreRate := pyRate c.ignore_count total
    forwardRate := pyRate c.forward_count total
    readRate := pyRate c.read_count total }

/-- `run_simulation_stream` (simulation.py lines 22-86) as the full event
sequence a consumer drains.  The persona population (produced externally by
`generate_personas`, spec section 6) is supplied as a list, each persona
paired with its stage oracle outcomes; `insightOut` is the oracle-path
outcome observed by `_generate_insights`. -/
def run_simulation_stream (hash : String → ℤ) (runs : List PersonaRun)
    (insightOut : InsightOutcome) : List Event :=
  let total := runs.length
  let r := simLoop hash total runs 0 initCounts
  let metrics := mkMetrics r.2.1 total
  let insights := generate_insights insightOut metrics
  r.2.2 ++ [Event.result { metrics := metrics, insights := insights, responses := r.1 }]

/-! ## Helper lemmas -/

lemma clampScanAction_mem (r : ScanJson) :
    clampScanAction r = "opened" ∨ clampScanAction r = "ignored" ∨
      clampScanAction r = "spam" := by
  simp only [clampScanAction]
  split_ifs with h
  · exact h
  · simp

lemma overrideAction_cases (r : ActJson) (cur : String) :
    overrideAction r cur = "clicked" ∨ overrideAction r cur = "replied" ∨
      overrideAction r cur = cur := by
  simp only [overrideAction]
  split_ifs with h
  · rcases h with h | h
    · exact Or.inl h
    · exact Or.inr (Or.inl h)
  · exact Or.inr (Or.inr rfl)

lemma orNoComment_ne_empty (o : Option String) : orNoComment o ≠ "" := by
  rcases o with _ | s
  · simp [orNoComment]
  · simp only [orNoComment]
    split_ifs with h <;> simp_all

lemma simulate_action_eq (p : Persona) (scanRes : Option ScanJson)
    (actRes : Option ActJson) :
    (simulate_single_persona p scanRes actRes).action =
      (if clampScanAction (scanRes.getD scanFallback) = "opened" then
        overrideAction (actRes.getD actFallback) "opened"
       else clampScanAction (scanRes.getD scanFallback)) := by
  unfold simulate_single_persona
  split_ifs with h <;> simp [h]

lemma simulate_not_opened (p : Persona) (scanRes : Option ScanJson)
    (actRes : Option ActJson)
    (h : clampScanAction (scanRes.getD scanFallback) ≠ "opened") :
    simulate_single_persona p scanRes actRes =
      { persona := p
        action := clampScanAction (scanRes.getD scanFallback)
        sentiment := "neutral"
        comment := orNoComment (some ((scanRes.getD scanFallback).reason.getD "Not relevant"))
        detailedReasoning := (scanRes.getD scanFallback).thought_process.getD
          ((scanRes.getD scanFallback).reason.getD "Not relevant") } := by
  simp only [simulate_single_persona]
  rw [if_neg h]

lemma simulate_opened (p : Persona) (scanRes : Option ScanJson)
    (actRes : Option ActJson)
    (h : clampScanAction (scanRes.getD scanFallback) = "opened") :
    simulate_single_persona p scanRes actRes =
      { persona := p
        action := overrideAction (actRes.getD actFallback) "opened"
        sentiment := "neutral"
        comment := orNoComment
          (if overrideAction (actRes.getD actFallback) "opened" = "replied" then
            (actRes.getD actFallback).reply_text
           else some ((actRes.getD actFallback).internal_monologue.getD
            ((scanRes.getD scanFallback).reason.getD "Not relevant")))
        detailedReasoning := (actRes.getD actFallback).internal_monologue.getD
          ((scanRes.getD scanFallback).reason.getD "Not relevant") } := by
  simp only [simulate_single_persona]
  rw [if_pos h, h]

lemma action_mem_five (p : Persona) (scanRes : Option ScanJson)
    (actRes : Option ActJson) :
    (simulate_single_persona p scanRes actRes).action = "opened" ∨
    (simulate_single_persona p scanRes actRes).action = "clicked" ∨
    (simulate_single_persona p scanRes actRes).action = "replied" ∨
    (simulate_single_persona p scanRes actRes).action = "spam" ∨
    (simulate_single_persona p scanRes actRes).action = "ignored" := by
  rw [simulate_action_eq]
  split_ifs with h
  · rcases overrideAction_cases (actRes.getD actFallback) "opened" with h1 | h1 | h1 <;>
      simp [h1]
  · rcases clampScanAction_mem (scanRes.getD scanFallback) with h1 | h1 | h1 <;>
      simp [h1]

/-! ## C1: every Response action is one of the five enumerated values -/

/-- C1: for every run and every Response produced by the Decision Engine, the
action is one of `opened`, `clicked`, `replied`, `spam`, `ignored` — never any
other string and never empty — because the scan stage clamps and the act stage
only lets `clicked`/`replied` replace `opened`. -/
theorem c1_action_always_enumerated (hash : String → ℤ) (total i : ℕ)
    (c : Counts) (runs : List PersonaRun) :
    ∀ r ∈ (simLoop hash total runs i c).1,
      r.action = "opened" ∨ r.action = "clicked" ∨ r.action = "replied" ∨
      r.action = "spam" ∨ r.action = "ignored" := by
  induction runs generalizing i c with
  | nil => intro r hr; simp [simLoop] at hr
  | cons pr rest ih =>
      intro r hr
      simp only [simLoop, List.mem_cons] at hr
      rcases hr with h | h
      · subst h; exact action_mem_five pr.persona pr.scanRes pr.actRes
      · exact ih _ _ r h

/-- Witness for C1 at a concrete one-persona run whose scan output fails to
parse: the produced action is among the five values. -/
theorem c1_witness :
    ((simLoop (fun _ => 0) 1 [⟨⟨"p1", "n", "r", "c", "x", "y"⟩, none, none⟩] 0
        initCounts).1.headI.action = "opened" ∨
     (simLoop (fun _ => 0) 1 [⟨⟨"p1", "n", "r", "c", "x", "y"⟩, none, none⟩] 0
        initCounts).1.headI.action = "clicked" ∨
     (simLoop (fun _ => 0) 1 [⟨⟨"p1", "n", "r", "c", "x", "y"⟩, none, none⟩] 0
        initCounts).1.headI.action = "replied" ∨
     (simLoop (fun _ => 0) 1 [⟨⟨"p1", "n", "r", "c", "x", "y"⟩, none, none⟩] 0
        initCounts).1.headI.action = "spam" ∨
     (simLoop (fun _ => 0) 1 [⟨⟨"p1", "n", "r", "c", "x", "y"⟩, none, none⟩] 0
        initCounts).1.headI.action = "ignored") :=
  c1_action_always_enumerated (fun _ => 0) 1 0 initCounts
    [⟨⟨"p1", "n", "r", "c", "x", "y"⟩, none, none⟩]
    ((simLoop (fun _ => 0) 1 [⟨⟨"p1", "n", "r", "c", "x", "y"⟩, none, none⟩] 0
        initCounts).1.headI) (by decide)

/-! ## C4: scan-stage parse failure and clamping (corrected) -/

/-- Counterexample to C4 as stated: an oracle output that parses fine but
carries the unrecognized action `"sideways"` is clamped to `ignored`, yet the
comment is the parsed reason, not the fixed default
`"Failed to parse decision"`. -/
theorem c4_counterexample :
    (simulate_single_persona ⟨"p1", "n", "r", "c", "x", "y"⟩
        (some ⟨some "sideways", some "totally relevant", none⟩) none).action =
      "ignored" ∧
    (simulate_single_persona ⟨"p1", "n", "r", "c", "x", "y"⟩
        (some ⟨some "sideways", some "totally relevant", none⟩) none).comment =
      "totally relevant" ∧
    (simulate_single_persona ⟨"p1", "n", "r", "c", "x", "y"⟩
        (some ⟨some "sideways", some "totally relevant", none⟩) none).comment ≠
      "Failed to parse decision" := by decide

/-- C4 (amended): the Decision Engine never raises.  On scan parse failure it
produces `action = "ignored"` with the fixed default reason
`"Failed to parse decision"` as the comment; if parsing succeeds but the
`action` field is absent or (after lower-casing) not one of
`opened`/`ignored`/`spam`, the action is clamped to `ignored` and the comment
is the parsed `reason` field (default `"Not relevant"`, placeholder
`"No comment"` if empty). -/
theorem c4_scan_fallback (p : Persona) (actRes : Option ActJson) :
    ((simulate_single_persona p none actRes).action = "ignored" ∧
     (simulate_single_persona p none actRes).comment = "Failed to parse decision") ∧
    ∀ s : ScanJson,
      (s.action = none ∨
        ¬(pyLower (s.action.getD "ignored") = "opened" ∨
          pyLower (s.action.getD "ignored") = "ignored" ∨
          pyLower (s.action.getD "ignored") = "spam")) →
      (simulate_single_persona p (some s) actRes).action = "ignored" ∧
      (simulate_single_persona p (some s) actRes).comment =
        orNoComment (some (s.reason.getD "Not relevant")) := by
  constructor
  · have h : clampScanAction ((none : Option ScanJson).getD scanFallback) ≠ "opened" := by
      decide
    rw [simulate_not_opened p none actRes h]
    exact ⟨rfl, rfl⟩
  · intro s hbad
    have hclamp : clampScanAction ((some s).getD scanFallback) = "ignored" := by
      rcases hbad with habs | hbad
      · simp only [Option.getD_some, clampScanAction, habs, Option.getD_none]
        decide
      · simp only [Option.getD_some, clampScanAction]
        rw [if_neg hbad]
    have h : clampScanAction ((some s).getD scanFallback) ≠ "opened" := by
      rw [hclamp]; decide
    rw [simulate_not_opened p (some s) actRes h]
    exact ⟨hclamp, rfl⟩

/-- Witness for C4 (amended) at concrete inputs: the scan stage clamps the
valid-JSON-but-invalid-action output `{action: "clicked", reason: "my reason"}`
to `ignored` keeping the parsed reason as comment, and does the same for a
parsed output whose `action` field is absent. -/
theorem c4_witness :
    ((simulate_single_persona ⟨"p1", "n", "r", "c", "x", "y"⟩
        (some ⟨some "clicked", some "my reason", none⟩) none).action = "ignored" ∧
     (simulate_single_persona ⟨"p1", "n", "r", "c", "x", "y"⟩
        (some ⟨some "clicked", some "my reason", none⟩) none).comment =
      orNoComment (some ((some "my reason").getD "Not relevant"))) ∧
    ((simulate_single_persona ⟨"p1", "n", "r", "c", "x", "y"⟩
        (some ⟨none, some "why not", none⟩) none).action = "ignored" ∧
     (simulate_single_persona ⟨"p1", "n", "r", "c", "x", "y"⟩
        (some ⟨none, some "why not", none⟩) none).comment =
      orNoComment (some ((some "why not").getD "Not relevant"))) :=
  ⟨(c4_scan_fallback ⟨"p1", "n", "r", "c", "x", "y"⟩ none).2
    ⟨some "clicked", some "my reason", none⟩ (by decide),
   (c4_scan_fallback ⟨"p1", "n", "r", "c", "x", "y"⟩ none).2
    ⟨none, some "why not", none⟩ (Or.inl rfl)⟩

/-! ## C5: act-stage override guard -/

/-- C5: for a persona whose scan action is `opened`, only a lower-cased
`final_action` of `clicked` or `replied` replaces the action; any other value
(including `forwarded`, `ignored`, an absent field — default `opened` — or
unparseable output, whose fallback carries `final_action = "opened"`) leaves
the final action as `opened`. -/
theorem c5_override_guard (p : Persona) (scanRes : Option ScanJson)
    (actRes : Option ActJson)
    (hopen : clampScanAction (scanRes.getD scanFallback) = "opened") :
    ((pyLower ((actRes.getD actFallback).final_action.getD "opened") = "clicked" ∨
      pyLower ((actRes.getD actFallback).final_action.getD "opened") = "replied") →
      (simulate_single_persona p scanRes actRes).action =
        pyLower ((actRes.getD actFallback).final_action.getD "opened")) ∧
    (¬(pyLower ((actRes.getD actFallback).final_action.getD "opened") = "clicked" ∨
       pyLower ((actRes.getD actFallback).final_action.getD "opened") = "replied") →
      (simulate_single_persona p scanRes actRes).action = "opened") := by
  rw [simulate_opened p scanRes actRes hopen]
  constructor
  · intro h
    simp only [overrideAction]
    rw [if_pos h]
  · intro h
    simp only [overrideAction]
    rw [if_neg h]

/-- Witness for C5, realizing the spec's override-guard scenario: scan returns
`opened`, the act stage returns `final_action = "forwarded"`, and the final
Response action remains `opened`. -/
theorem c5_witness :
    (simulate_single_persona ⟨"p1", "n", "r", "c", "x", "y"⟩
        (some ⟨some "opened", some "r0", none⟩)
        (some ⟨some "forwarded", none, some "m0"⟩)).action = "opened" :=
  (c5_override_guard ⟨"p1", "n", "r", "c", "x", "y"⟩
      (some ⟨some "opened", some "r0", none⟩)
      (some ⟨some "forwarded", none, some "m0"⟩) (by decide)).2 (by decide)

/-! ## C9: comment selection rules (corrected) -/

/-- Counterexample to C9 as stated: with scan `opened` (reason `"r0"`) and act
`final_action = "replied"` with `reply_text` absent and internal monologue
`"mono"`, the claimed fallback chain would give comment `"mono"`; the code
gives the placeholder `"No comment"` — `reply_text` absent never falls back to
the monologue or the scan reason. -/
theorem c9_counterexample :
    (simulate_single_persona ⟨"p1", "n", "r", "c", "x", "y"⟩
        (some ⟨some "opened", some "r0", none⟩)
        (some ⟨some "replied", none, some "mono"⟩)).action = "replied" ∧
    (simulate_single_persona ⟨"p1", "n", "r", "c", "x", "y"⟩
        (some ⟨some "opened", some "r0", none⟩)
        (some ⟨some "replied", none, some "mono"⟩)).comment = "No comment" ∧
    (simulate_single_persona ⟨"p1", "n", "r", "c", "x", "y"⟩
        (some ⟨some "opened", some "r0", none⟩)
        (some ⟨some "replied", none, some "mono"⟩)).comment ≠ "mono" ∧
    (simulate_single_persona ⟨"p1", "n", "r", "c", "x", "y"⟩
        (some ⟨some "opened", some "r0", none⟩)
        (some ⟨some "replied", none, some "mono"⟩)).comment ≠ "r0" := by decide

/-- C9 (amended): when the final action is `replied` the comment is the
oracle's reply text, with the placeholder `"No comment"` (not the monologue or
the scan reason) when that text is absent or empty; when the persona opened
but did not reply, the comment is the internal monologue falling back to the
scan reason; for terminal scan outcomes it is the scan reason; and no comment
is ever blank, the placeholder `"No comment"` replacing any empty result. -/
theorem c9_comment_rules (p : Persona) (scanRes : Option ScanJson)
    (actRes : Option ActJson) :
    (simulate_single_persona p scanRes actRes).comment ≠ "" ∧
    ((simulate_single_persona p scanRes actRes).action = "replied" →
      (simulate_single_persona p scanRes actRes).comment =
        orNoComment (actRes.getD actFallback).reply_text) ∧
    (clampScanAction (scanRes.getD scanFallback) = "opened" →
      (simulate_single_persona p scanRes actRes).action ≠ "replied" →
      (simulate_single_persona p scanRes actRes).comment =
        orNoComment (some ((actRes.getD actFallback).internal_monologue.getD
          ((scanRes.getD scanFallback).reason.getD "Not relevant")))) ∧
    (clampScanAction (scanRes.getD scanFallback) ≠ "opened" →
      (simulate_single_persona p scanRes actRes).comment =
        orNoComment (some ((scanRes.getD scanFallback).reason.getD "Not relevant"))) := by
  by_cases hop : clampScanAction (scanRes.getD scanFallback) = "opened"
  · rw [simulate_opened p scanRes actRes hop]
    refine ⟨?_, ?_, ?_, ?_⟩
    · exact orNoComment_ne_empty _
    · intro h
      rw [if_pos h]
    · intro _ h
      rw [if_neg h]
    · intro h
      exact absurd hop h
  · rw [simulate_not_opened p scanRes actRes hop]
    refine ⟨?_, ?_, ?_, fun _ => rfl⟩
    · exact orNoComment_ne_empty
        (some ((scanRes.getD scanFallback).reason.getD "Not relevant"))
    · intro h
      rcases clampScanAction_mem (scanRes.getD scanFallback) with h1 | h1 | h1 <;>
        rw [h1] at h <;> simp at h
    · intro h _
      exact absurd h hop

/-- Witness for C9 (amended) at concrete inputs: a reply with text present
keeps the reply text; a spam scan outcome keeps the scan reason. -/
theorem c9_witness :
    (simulate_single_persona ⟨"p1", "n", "r", "c", "x", "y"⟩
        (some ⟨some "opened", some "r0", none⟩)
        (some ⟨some "replied", some "thanks", none⟩)).comment =
      orNoComment ((some (⟨some "replied", some "thanks", none⟩ : ActJson)).getD
        actFallback).reply_text ∧
    (simulate_single_persona ⟨"p1", "n", "r", "c", "x", "y"⟩
        (some ⟨some "spam", some "r1", none⟩) none).comment =
      orNoComment (some (((some (⟨some "spam", some "r1", none⟩ : ScanJson)).getD
        scanFallback).reason.getD "Not relevant")) :=
  ⟨(c9_comment_rules ⟨"p1", "n", "r", "c", "x", "y"⟩
      (some ⟨some "opened", some "r0", none⟩)
      (some ⟨some "replied", some "thanks", none⟩)).2.1 (by decide),
   (c9_comment_rules ⟨"p1", "n", "r", "c", "x", "y"⟩
      (some ⟨some "spam", some "r1", none⟩) none).2.2.2 (by decide)⟩

/-! ## C7: lexical similarity fallback -/

/-- C7: the lexical Jaccard fallback is symmetric, returns exactly `1` on
identical input whenever the text's lower-cased whitespace tokens are not all
stop words and not empty, returns `0` whenever either token set is empty after
stop-word removal, and always yields a value in `[0, 1]`. -/
theorem c7_similarity_props (a b : String) :
    keyword_similarity a b = keyword_similarity b a ∧
    (cleanWords a ≠ ∅ → keyword_similarity a a = 1) ∧
    ((cleanWords a = ∅ ∨ cleanWords b = ∅) → keyword_similarity a b = 0) ∧
    0 ≤ keyword_similarity a b ∧ keyword_similarity a b ≤ 1 := by
  refine ⟨?_, ?_, ?_, ?_, ?_⟩
  · by_cases h1 : cleanWords a = ∅ <;> by_cases h2 : cleanWords b = ∅ <;>
      simp [keyword_similarity, h1, h2, Finset.inter_comm, Finset.union_comm]
  · intro h
    have hc : ((cleanWords a).card : ℚ) ≠ 0 := by
      exact_mod_cast Finset.card_ne_zero.mpr (Finset.nonempty_iff_ne_empty.mpr h)
    simp [keyword_similarity, h, Finset.inter_self, Finset.union_self, div_self hc]
  · intro h
    rcases h with h | h <;> simp [keyword_similarity, h]
  · simp only [keyword_similarity]
    split_ifs with h
    · exact le_refl 0
    · positivity
  · simp only [keyword_similarity]
    split_ifs with h
    · exact zero_le_one
    · push_neg at h
      have hpos : 0 < ((cleanWords a ∪ cleanWords b).card : ℚ) := by
        have : (cleanWords a ∪ cleanWords b).Nonempty :=
          Finset.Nonempty.mono Finset.subset_union_left
            (Finset.nonempty_iff_ne_empty.mpr h.1)
        exact_mod_cast Finset.card_pos.mpr this
      rw [div_le_one hpos]
      exact_mod_cast Finset.card_le_card
        (Finset.inter_subset_left.trans Finset.subset_union_left)

/-- Witness for C7 at concrete texts: symmetry, identity on a text with
non-stop-word tokens, zero on a stop-word-only text, and the range bounds. -/
theorem c7_witness :
    keyword_similarity "hello world" "bright world" =
      keyword_similarity "bright world" "hello world" ∧
    keyword_similarity "hello world" "hello world" = 1 ∧
    keyword_similarity "the of" "hello" = 0 ∧
    0 ≤ keyword_similarity "hello world" "bright world" ∧
    keyword_similarity "hello world" "bright world" ≤ 1 :=
  ⟨(c7_similarity_props "hello world" "bright world").1,
   (c7_similarity_props "hello world" "hello world").2.1 (by decide),
   (c7_similarity_props "the of" "hello").2.2.1 (Or.inl (by decide)),
   (c7_similarity_props "hello world" "bright world").2.2.2.1,
   (c7_similarity_props "hello world" "bright world").2.2.2.2⟩

/-! ## Properties of the binary64 model -/

lemma pow2_eq_zpow (e : ℤ) : pow2 e = (2 : ℚ) ^ e := by
  unfold pow2
  split_ifs with h
  · push_cast
    rw [← zpow_natCast, Int.toNat_of_nonneg h]
  · push_cast
    rw [one_div, ← zpow_natCast, Int.toNat_of_nonneg (show (0 : ℤ) ≤ -e by omega),
      ← zpow_neg, neg_neg]

lemma pow2_pos (e : ℤ) : 0 < pow2 e := by
  rw [pow2_eq_zpow]
  positivity

lemma pow2_add (a b : ℤ) : pow2 (a + b) = pow2 a * pow2 b := by
  rw [pow2_eq_zpow, pow2_eq_zpow, pow2_eq_zpow, zpow_add₀ (two_ne_zero)]

lemma pow2_le_pow2 {a b : ℤ} (h : a ≤ b) : pow2 a ≤ pow2 b := by
  rw [pow2_eq_zpow, pow2_eq_zpow]
  exact zpow_le_zpow_right₀ one_le_two h

lemma pow2_lt_iff {a b : ℤ} : pow2 a < pow2 b ↔ a < b := by
  rw [pow2_eq_zpow, pow2_eq_zpow]
  exact zpow_lt_zpow_iff_right₀ one_lt_two

lemma rhe_ge_floor (x : ℚ) : ⌊x⌋ ≤ rhe x := by
  simp only [rhe]
  split_ifs <;> omega

lemma rhe_le_floor_add_one (x : ℚ) : rhe x ≤ ⌊x⌋ + 1 := by
  simp only [rhe]
  split_ifs <;> omega

lemma rhe_nonneg {x : ℚ} (h : 0 ≤ x) : 0 ≤ rhe x := by
  have := rhe_ge_floor x
  have h0 : (0 : ℤ) ≤ ⌊x⌋ := Int.floor_nonneg.mpr h
  omega

lemma rhe_sub_le_half (x : ℚ) : (rhe x : ℚ) - x ≤ 1 / 2 := by
  have hf : (⌊x⌋ : ℚ) ≤ x := Int.floor_le x
  simp only [rhe]
  split_ifs with h1 h2 h3
  · linarith
  · push_cast
    linarith [not_lt.mp h1]
  · have : x - (⌊x⌋ : ℚ) = 1 / 2 := le_antisymm (not_lt.mp h2) (not_lt.mp h1)
    linarith
  · push_cast
    have : x - (⌊x⌋ : ℚ) = 1 / 2 := le_antisymm (not_lt.mp h2) (not_lt.mp h1)
    linarith

lemma rhe_mono {x y : ℚ} (h : x ≤ y) : rhe x ≤ rhe y := by
  have hfl : ⌊x⌋ ≤ ⌊y⌋ := Int.floor_le_floor h
  rcases lt_or_eq_of_le hfl with hlt | heq
  · have h1 := rhe_le_floor_add_one x
    have h2 := rhe_ge_floor y
    omega
  · by_contra hcon
    push_neg at hcon
    have hx1 := rhe_ge_floor x
    have hx2 := rhe_le_floor_add_one x
    have hy1 := rhe_ge_floor y
    have hy2 := rhe_le_floor_add_one y
    have hxv : rhe x = ⌊x⌋ + 1 := by omega
    have hyv : rhe y = ⌊y⌋ := by omega
    simp only [rhe, ← heq] at hxv hyv
    have hfx : (⌊x⌋ : ℚ) ≤ x := Int.floor_le x
    split_ifs at hxv hyv <;>
      first
        | omega
        | ((try push_neg at *); linarith)

lemma log2Aux_bracket :
    ∀ fuel lo hi n : ℕ, 0 < n → 2 ^ lo ≤ n → n < 2 ^ hi → hi - lo ≤ 2 ^ fuel →
      2 ^ log2Aux n fuel lo hi ≤ n ∧ n < 2 ^ (log2Aux n fuel lo hi + 1) := by
  intro fuel
  induction fuel with
  | zero =>
      intro lo hi n hn hlo hhi hw
      simp only [log2Aux]
      exact ⟨hlo, lt_of_lt_of_le hhi (Nat.pow_le_pow_right (by norm_num) (by omega))⟩
  | succ f ih =>
      intro lo hi n hn hlo hhi hw
      have h2f : (2 : ℕ) ^ (f + 1) = 2 * 2 ^ f := by ring
      simp only [log2Aux]
      split_ifs with h1 h2
      · exact ⟨hlo, lt_of_lt_of_le hhi (Nat.pow_le_pow_right (by norm_num) (by omega))⟩
      · exact ih lo ((lo + hi) / 2) n hn hlo h2 (by omega)
      · exact ih ((lo + hi) / 2) hi n hn (Nat.le_of_not_lt h2) hhi (by omega)

lemma natLog2_bracket {n : ℕ} (hn : 0 < n) :
    2 ^ natLog2 n ≤ n ∧ n < 2 ^ (natLog2 n + 1) := by
  unfold natLog2
  split_ifs with h
  · exact log2Aux_bracket 8 0 256 n hn (by simpa using hn) h (by norm_num)
  · rw [Nat.log2_eq_log_two]
    exact ⟨Nat.pow_log_le_self 2 (by omega), Nat.lt_pow_succ_log_self (by norm_num) n⟩

lemma qlog2_bracket {q : ℚ} (hq : 0 < q) :
    pow2 (qlog2 q) ≤ q ∧ q < pow2 (qlog2 q + 1) := by
  have hnum : 0 < q.num := Rat.num_pos.mpr hq
  have hn : 0 < q.num.toNat := by omega
  have hd : 0 < q.den := q.den_pos
  obtain ⟨hb1, hb2⟩ := natLog2_bracket hn
  obtain ⟨hc1, hc2⟩ := natLog2_bracket hd
  have hNcast : ((q.num.toNat : ℕ) : ℚ) = (q.num : ℚ) := by
    exact_mod_cast congrArg (Int.cast : ℤ → ℚ) (Int.toNat_of_nonneg (le_of_lt hnum))
  have hD : (0 : ℚ) < (q.den : ℚ) := by exact_mod_cast hd
  have h1 : (2 : ℚ) ^ natLog2 q.num.toNat ≤ (q.num : ℚ) := by
    rw [← hNcast]; exact_mod_cast hb1
  have h2 : (q.num : ℚ) < 2 ^ (natLog2 q.num.toNat + 1) := by
    rw [← hNcast]; exact_mod_cast hb2
  have h3 : (2 : ℚ) ^ natLog2 q.den ≤ (q.den : ℚ) := by exact_mod_cast hc1
  have h4 : (q.den : ℚ) < 2 ^ (natLog2 q.den + 1) := by exact_mod_cast hc2
  have hqeq : q * (q.den : ℚ) = (q.num : ℚ) := by
    exact ((div_eq_iff hD.ne').mp (Rat.num_div_den q)).symm
  have hlow : pow2 ((natLog2 q.num.toNat : ℤ) - natLog2 q.den - 1) < q := by
    rw [pow2_eq_zpow,
      show (natLog2 q.num.toNat : ℤ) - natLog2 q.den - 1 =
        (natLog2 q.num.toNat : ℤ) - ((natLog2 q.den : ℤ) + 1) by ring,
      zpow_sub₀ two_ne_zero, div_lt_iff₀ (by positivity)]
    calc (2 : ℚ) ^ (natLog2 q.num.toNat : ℤ) = (2 : ℚ) ^ natLog2 q.num.toNat :=
          zpow_natCast 2 _
      _ ≤ (q.num : ℚ) := h1
      _ = q * (q.den : ℚ) := hqeq.symm
      _ < q * 2 ^ ((natLog2 q.den : ℤ) + 1) := by
          apply mul_lt_mul_of_pos_left _ hq
          calc (q.den : ℚ) < 2 ^ (natLog2 q.den + 1) := h4
            _ = 2 ^ ((natLog2 q.den : ℤ) + 1) := by
                rw [show (natLog2 q.den : ℤ) + 1 = ((natLog2 q.den + 1 : ℕ) : ℤ) by
                  push_cast; ring, zpow_natCast]
  have hhigh : q < pow2 ((natLog2 q.num.toNat : ℤ) - natLog2 q.den + 1) := by
    rw [pow2_eq_zpow,
      show (natLog2 q.num.toNat : ℤ) - natLog2 q.den + 1 =
        ((natLog2 q.num.toNat : ℤ) + 1) - (natLog2 q.den : ℤ) by ring,
      zpow_sub₀ two_ne_zero, lt_div_iff₀ (by positivity)]
    calc q * (2 : ℚ) ^ (natLog2 q.den : ℤ) ≤ q * (q.den : ℚ) := by
          apply mul_le_mul_of_nonneg_left _ (le_of_lt hq)
          rw [zpow_natCast]
          exact h3
      _ = (q.num : ℚ) := hqeq
      _ < 2 ^ (natLog2 q.num.toNat + 1) := h2
      _ = 2 ^ ((natLog2 q.num.toNat : ℤ) + 1) := by
          rw [show (natLog2 q.num.toNat : ℤ) + 1 = ((natLog2 q.num.toNat + 1 : ℕ) : ℤ) by
            push_cast; ring, zpow_natCast]
  simp only [qlog2]
  split_ifs with hs1
  · refine ⟨le_of_lt hlow, ?_⟩
    rw [show (natLog2 q.num.toNat : ℤ) - natLog2 q.den - 1 + 1 =
      (natLog2 q.num.toNat : ℤ) - natLog2 q.den by ring]
    exact hs1
  · exact ⟨not_lt.mp hs1, hhigh⟩

lemma pow2_zero : pow2 0 = 1 := by norm_num [pow2, Int.toNat_ofNat]

lemma fl_zero_of_nonpos {q : ℚ} (h : q ≤ 0) : fl q = 0 := by
  simp only [fl]
  rw [if_pos h]

lemma fl_nonneg (q : ℚ) : 0 ≤ fl q := by
  simp only [fl]
  split_ifs with h
  · exact le_refl 0
  · push_neg at h
    apply mul_nonneg _ (le_of_lt (pow2_pos _))
    exact_mod_cast rhe_nonneg (mul_nonneg (le_of_lt h) (le_of_lt (pow2_pos _)))

lemma fl_le_add_ulp {q : ℚ} (hq : 0 < q) : fl q ≤ q + pow2 (qlog2 q - 53) := by
  simp only [fl]
  rw [if_neg (not_le.mpr hq)]
  have h := rhe_sub_le_half (q * pow2 (52 - qlog2 q))
  have hp := pow2_pos (qlog2 q - 52)
  have hcancel : pow2 (52 - qlog2 q) * pow2 (qlog2 q - 52) = 1 := by
    rw [← pow2_add, show (52 : ℤ) - qlog2 q + (qlog2 q - 52) = 0 by ring, pow2_zero]
  have hhalf : (1 / 2 : ℚ) * pow2 (qlog2 q - 52) = pow2 (qlog2 q - 53) := by
    rw [show (1 / 2 : ℚ) = pow2 (-1) by norm_num [pow2, Int.toNat_ofNat], ← pow2_add,
      show (-1 : ℤ) + (qlog2 q - 52) = qlog2 q - 53 by ring]
  calc (rhe (q * pow2 (52 - qlog2 q)) : ℚ) * pow2 (qlog2 q - 52)
      ≤ (q * pow2 (52 - qlog2 q) + 1 / 2) * pow2 (qlog2 q - 52) := by
        apply mul_le_mul_of_nonneg_right _ (le_of_lt hp)
        linarith
    _ = q * (pow2 (52 - qlog2 q) * pow2 (qlog2 q - 52)) +
        (1 / 2 : ℚ) * pow2 (qlog2 q - 52) := by ring
    _ = q + pow2 (qlog2 q - 53) := by rw [hcancel, hhalf, mul_one]

lemma fl_le_pow2_succ {q : ℚ} (hq : 0 < q) : fl q ≤ pow2 (qlog2 q + 1) := by
  simp only [fl]
  rw [if_neg (not_le.mpr hq)]
  have hx : q * pow2 (52 - qlog2 q) < pow2 53 := by
    have h1 := (qlog2_bracket hq).2
    calc q * pow2 (52 - qlog2 q) < pow2 (qlog2 q + 1) * pow2 (52 - qlog2 q) :=
          mul_lt_mul_of_pos_right h1 (pow2_pos _)
      _ = pow2 53 := by
          rw [← pow2_add, show qlog2 q + 1 + (52 - qlog2 q) = 53 by ring]
  have hp53 : pow2 (53 : ℤ) = ((2 ^ 53 : ℤ) : ℚ) := by decide
  have hfloor : ⌊q * pow2 (52 - qlog2 q)⌋ < 2 ^ 53 := by
    rw [Int.floor_lt]
    calc q * pow2 (52 - qlog2 q) < pow2 53 := hx
      _ = ((2 ^ 53 : ℤ) : ℚ) := hp53
  have hm : rhe (q * pow2 (52 - qlog2 q)) ≤ 2 ^ 53 := by
    have := rhe_le_floor_add_one (q * pow2 (52 - qlog2 q))
    omega
  calc (rhe (q * pow2 (52 - qlog2 q)) : ℚ) * pow2 (qlog2 q - 52)
      ≤ ((2 ^ 53 : ℤ) : ℚ) * pow2 (qlog2 q - 52) := by
        apply mul_le_mul_of_nonneg_right _ (le_of_lt (pow2_pos _))
        exact_mod_cast hm
    _ = pow2 53 * pow2 (qlog2 q - 52) := by rw [hp53]
    _ = pow2 (qlog2 q + 1) := by
        rw [← pow2_add, show (53 : ℤ) + (qlog2 q - 52) = qlog2 q + 1 by ring]

lemma fl_ge_pow2 {q : ℚ} (hq : 0 < q) : pow2 (qlog2 q) ≤ fl q := by
  simp only [fl]
  rw [if_neg (not_le.mpr hq)]
  have hx : pow2 52 ≤ q * pow2 (52 - qlog2 q) := by
    have h1 := (qlog2_bracket hq).1
    calc pow2 (52 : ℤ) = pow2 (qlog2 q) * pow2 (52 - qlog2 q) := by
          rw [← pow2_add, show qlog2 q + (52 - qlog2 q) = 52 by ring]
      _ ≤ q * pow2 (52 - qlog2 q) := mul_le_mul_of_nonneg_right h1 (le_of_lt (pow2_pos _))
  have hp52 : pow2 (52 : ℤ) = ((2 ^ 52 : ℤ) : ℚ) := by decide
  have hfloor : (2 : ℤ) ^ 52 ≤ ⌊q * pow2 (52 - qlog2 q)⌋ := by
    rw [Int.le_floor]
    calc ((2 ^ 52 : ℤ) : ℚ) = pow2 52 := hp52.symm
      _ ≤ q * pow2 (52 - qlog2 q) := hx
  have hm : (2 : ℤ) ^ 52 ≤ rhe (q * pow2 (52 - qlog2 q)) := by
    have := rhe_ge_floor (q * pow2 (52 - qlog2 q))
    omega
  calc pow2 (qlog2 q) = pow2 52 * pow2 (qlog2 q - 52) := by
        rw [← pow2_add, show (52 : ℤ) + (qlog2 q - 52) = qlog2 q by ring]
    _ = ((2 ^ 52 : ℤ) : ℚ) * pow2 (qlog2 q - 52) := by rw [hp52]
    _ ≤ (rhe (q * pow2 (52 - qlog2 q)) : ℚ) * pow2 (qlog2 q - 52) := by
        apply mul_le_mul_of_nonneg_right _ (le_of_lt (pow2_pos _))
        exact_mod_cast hm

lemma fl_mono {x y : ℚ} (h : x ≤ y) : fl x ≤ fl y := by
  by_cases hx : x ≤ 0
  · rw [fl_zero_of_nonpos hx]
    exact fl_nonneg y
  · push_neg at hx
    have hy : 0 < y := lt_of_lt_of_le hx h
    rcases lt_trichotomy (qlog2 x) (qlog2 y) with hlt | heqe | hgt
    · calc fl x ≤ pow2 (qlog2 x + 1) := fl_le_pow2_succ hx
        _ ≤ pow2 (qlog2 y) := pow2_le_pow2 (by omega)
        _ ≤ fl y := fl_ge_pow2 hy
    · simp only [fl]
      rw [if_neg (not_le.mpr hx), if_neg (not_le.mpr hy), heqe]
      apply mul_le_mul_of_nonneg_right _ (le_of_lt (pow2_pos _))
      have := rhe_mono (mul_le_mul_of_nonneg_right h (le_of_lt (pow2_pos (52 - qlog2 y))))
      exact_mod_cast this
    · exfalso
      have h1 := (qlog2_bracket hx).1
      have h2 := (qlog2_bracket hy).2
      have : pow2 (qlog2 x) < pow2 (qlog2 y + 1) := lt_of_le_of_lt (le_trans h1 h) h2
      rw [pow2_lt_iff] at this
      omega

lemma fl_one : fl 1 = 1 := by decide

lemma pyRate_le_100 {c t : ℕ} (h : c ≤ t) : pyRate c t ≤ 100 := by
  unfold pyRate
  split_ifs with ht
  · have htq : (0 : ℚ) < (t : ℚ) := by exact_mod_cast ht
    have hx1 : fl ((c : ℚ) / (t : ℚ)) ≤ 1 := by
      calc fl ((c : ℚ) / (t : ℚ)) ≤ fl 1 := by
            apply fl_mono
            rw [div_le_one htq]
            exact_mod_cast h
        _ = 1 := fl_one
    have hx0 : 0 ≤ fl ((c : ℚ) / (t : ℚ)) := fl_nonneg _
    by_cases hz : fl ((c : ℚ) / (t : ℚ)) * 100 ≤ 0
    · rw [fl_zero_of_nonpos hz]
      norm_num
    · push_neg at hz
      have he : qlog2 (fl ((c : ℚ) / (t : ℚ)) * 100) ≤ 6 := by
        have hb := (qlog2_bracket hz).1
        have h100 : fl ((c : ℚ) / (t : ℚ)) * 100 ≤ 100 := by nlinarith
        have hlt : pow2 (qlog2 (fl ((c : ℚ) / (t : ℚ)) * 100)) < pow2 7 := by
          apply lt_of_le_of_lt (le_trans hb h100)
          decide
        rw [pow2_lt_iff] at hlt
        omega
      have hulp := fl_le_add_ulp hz
      have hlt101 : fl (fl ((c : ℚ) / (t : ℚ)) * 100) < 101 := by
        have h100 : fl ((c : ℚ) / (t : ℚ)) * 100 ≤ 100 := by nlinarith
        have hsmall : pow2 (qlog2 (fl ((c : ℚ) / (t : ℚ)) * 100) - 53) ≤ pow2 (-47 : ℤ) :=
          pow2_le_pow2 (by omega)
        have hlast : pow2 (-47 : ℤ) < 1 := by decide
        linarith
      have hfl : ⌊fl (fl ((c : ℚ) / (t : ℚ)) * 100)⌋ < 101 := by
        rw [Int.floor_lt]
        exact_mod_cast hlt101
      omega
  · norm_num

lemma pyRate_mono {a b t : ℕ} (h : a ≤ b) : pyRate a t ≤ pyRate b t := by
  unfold pyRate
  split_ifs with ht
  · have htq : (0 : ℚ) < (t : ℚ) := by exact_mod_cast ht
    have h1 : (a : ℚ) / (t : ℚ) ≤ (b : ℚ) / (t : ℚ) := by
      have hab : (a : ℚ) ≤ (b : ℚ) := by exact_mod_cast h
      gcongr
    have h2 : fl ((a : ℚ) / (t : ℚ)) * 100 ≤ fl ((b : ℚ) / (t : ℚ)) * 100 := by
      have := fl_mono h1
      linarith
    have h3 := fl_mono h2
    have h4 := Int.floor_le_floor h3
    omega
  · exact le_refl 0

lemma pyRate_zero_total (c : ℕ) : pyRate c 0 = 0 := rfl

set_option maxHeartbeats 1600000 in
lemma updateCounts_eq (hash : String → ℤ) (c : Counts) (p : Persona) (r : Response) :
    updateCounts hash c p r =
      { open_count := c.open_count + (if r.action = "opened" then 1 else 0)
        click_count := c.click_count + (if r.action = "clicked" then 1 else 0)
        reply_count := c.reply_count + (if r.action = "replied" then 1 else 0)
        spam_count := c.spam_count + (if r.action = "spam" then 1 else 0)
        ignore_count := c.ignore_count + (if r.action = "ignored" then 1 else 0)
        read_count := c.read_count +
          (if r.action = "opened" ∨ r.action = "clicked" ∨ r.action = "replied" then 1
           else 0)
        forward_count := c.forward_count +
          (if r.action = "clicked" ∧ hash p.id % 5 = 0 then 1 else 0) } := by
  simp only [updateCounts]
  split_ifs <;> simp

lemma simLoop_length (hash : String → ℤ) (total : ℕ) :
    ∀ (runs : List PersonaRun) (i : ℕ) (c : Counts),
      (simLoop hash total runs i c).1.length = runs.length := by
  intro runs
  induction runs with
  | nil => intro i c; simp [simLoop]
  | cons pr rest ih => intro i c; simp [simLoop, ih]

lemma five_sum_update (hash : String → ℤ) (c : Counts) (p : Persona) (r : Response)
    (hfive : r.action = "opened" ∨ r.action = "clicked" ∨ r.action = "replied" ∨
      r.action = "spam" ∨ r.action = "ignored") :
    (updateCounts hash c p r).open_count + (updateCounts hash c p r).click_count +
      (updateCounts hash c p r).reply_count + (updateCounts hash c p r).spam_count +
      (updateCounts hash c p r).ignore_count =
    c.open_count + c.click_count + c.reply_count + c.spam_count + c.ignore_count + 1 := by
  rw [updateCounts_eq]
  rcases hfive with h | h | h | h | h <;> simp [h] <;> omega

lemma simLoop_five_sum (hash : String → ℤ) (total : ℕ) :
    ∀ (runs : List PersonaRun) (i : ℕ) (c : Counts),
      (simLoop hash total runs i c).2.1.open_count +
        (simLoop hash total runs i c).2.1.click_count +
        (simLoop hash total runs i c).2.1.reply_count +
        (simLoop hash total runs i c).2.1.spam_count +
        (simLoop hash total runs i c).2.1.ignore_count =
      c.open_count + c.click_count + c.reply_count + c.spam_count + c.ignore_count +
        runs.length := by
  intro runs
  induction runs with
  | nil => intro i c; simp [simLoop]
  | cons pr rest ih =>
      intro i c
      simp only [simLoop, List.length_cons]
      rw [ih]
      have := five_sum_update hash c pr.persona
        (simulate_single_persona pr.persona pr.scanRes pr.actRes)
        (action_mem_five pr.persona pr.scanRes pr.actRes)
      omega

lemma counts_le_update (hash : String → ℤ) (c : Counts) (p : Persona) (r : Response) :
    (updateCounts hash c p r).open_count ≤ c.open_count + 1 ∧
    (updateCounts hash c p r).click_count ≤ c.click_count + 1 ∧
    (updateCounts hash c p r).reply_count ≤ c.reply_count + 1 ∧
    (updateCounts hash c p r).spam_count ≤ c.spam_count + 1 ∧
    (updateCounts hash c p r).ignore_count ≤ c.ignore_count + 1 ∧
    (updateCounts hash c p r).read_count ≤ c.read_count + 1 ∧
    (updateCounts hash c p r).forward_count ≤ c.forward_count + 1 := by
  rw [updateCounts_eq]
  refine ⟨?_, ?_, ?_, ?_, ?_, ?_, ?_⟩ <;> (simp only; split_ifs <;> omega)

lemma simLoop_counts_le (hash : String → ℤ) (total : ℕ) :
    ∀ (runs : List PersonaRun) (i : ℕ) (c : Counts),
      (simLoop hash total runs i c).2.1.open_count ≤ c.open_count + runs.length ∧
      (simLoop hash total runs i c).2.1.click_count ≤ c.click_count + runs.length ∧
      (simLoop hash total runs i c).2.1.reply_count ≤ c.reply_count + runs.length ∧
      (simLoop hash total runs i c).2.1.spam_count ≤ c.spam_count + runs.length ∧
      (simLoop hash total runs i c).2.1.ignore_count ≤ c.ignore_count + runs.length ∧
      (simLoop hash total runs i c).2.1.read_count ≤ c.read_count + runs.length ∧
      (simLoop hash total runs i c).2.1.forward_count ≤ c.forward_count + runs.length := by
  intro runs
  induction runs with
  | nil => intro i c; simp [simLoop]
  | cons pr rest ih =>
      intro i c
      simp only [simLoop, List.length_cons]
      obtain ⟨u1, u2, u3, u4, u5, u6, u7⟩ := counts_le_update hash c pr.persona
        (simulate_single_persona pr.persona pr.scanRes pr.actRes)
      obtain ⟨l1, l2, l3, l4, l5, l6, l7⟩ := ih (i + 1)
        (updateCounts hash c pr.persona
          (simulate_single_persona pr.persona pr.scanRes pr.actRes))
      exact ⟨by omega, by omega, by omega, by omega, by omega, by omega, by omega⟩

lemma forward_le_click_update (hash : String → ℤ) (c : Counts) (p : Persona)
    (r : Response) (h : c.forward_count ≤ c.click_count) :
    (updateCounts hash c p r).forward_count ≤ (updateCounts hash c p r).click_count := by
  rw [updateCounts_eq]
  simp only
  split_ifs with h1 h2
  · omega
  · exact absurd h1.1 h2
  · omega
  · omega

lemma simLoop_forward_le_click (hash : String → ℤ) (total : ℕ) :
    ∀ (runs : List PersonaRun) (i : ℕ) (c : Counts),
      c.forward_count ≤ c.click_count →
      (simLoop hash total runs i c).2.1.forward_count ≤
        (simLoop hash total runs i c).2.1.click_count := by
  intro runs
  induction runs with
  | nil => intro i c h; simpa [simLoop] using h
  | cons pr rest ih =>
      intro i c h
      simp only [simLoop]
      exact ih (i + 1) _ (forward_le_click_update hash c pr.persona _ h)

lemma simLoop_events (hash : String → ℤ) (total : ℕ) :
    ∀ (runs : List PersonaRun) (i : ℕ) (c : Counts),
      (simLoop hash total runs i c).2.2 =
        (List.range runs.length).map (fun k => Event.progress (i + 1 + k) total) := by
  intro runs
  induction runs with
  | nil => intro i c; simp [simLoop]
  | cons pr rest ih =>
      intro i c
      have hfun : ((fun k => Event.progress (i + 1 + k) total) ∘ Nat.succ) =
          (fun k => Event.progress (i + 1 + 1 + k) total) := by
        funext k
        simp only [Function.comp_apply]
        congr 1
        omega
      simp only [simLoop, List.length_cons, ih, List.range_succ_eq_map, List.map_cons,
        List.map_map, Nat.add_zero, hfun]

/-! ## C2: metrics formula (corrected — the rates are computed in binary64) -/

/-- Counterexample to C2 as stated: a run of 100 personas of which exactly 29
open gives `openRate = 28`, not `floor(29 / 100 * 100) = 29` — the two
binary64 roundings in `int((count / total) * 100)` land just below 29. -/
theorem c2_counterexample :
    (simLoop (fun _ => 1) 100
      (List.replicate 29
        (⟨⟨"p", "n", "r", "c", "x", "y"⟩, some ⟨some "opened", some "r", none⟩,
          some ⟨some "stay", none, none⟩⟩ : PersonaRun) ++
       List.replicate 71
        (⟨⟨"p", "n", "r", "c", "x", "y"⟩, some ⟨some "ignored", some "r", none⟩,
          none⟩ : PersonaRun))
      0 initCounts).2.1.open_count = 29 ∧
    (mkMetrics
      (simLoop (fun _ => 1) 100
        (List.replicate 29
          (⟨⟨"p", "n", "r", "c", "x", "y"⟩, some ⟨some "opened", some "r", none⟩,
            some ⟨some "stay", none, none⟩⟩ : PersonaRun) ++
         List.replicate 71
          (⟨⟨"p", "n", "r", "c", "x", "y"⟩, some ⟨some "ignored", some "r", none⟩,
            none⟩ : PersonaRun))
        0 initCounts).2.1 100).openRate = 28 ∧
    29 * 100 / 100 = 29 := by decide

/-- C2 (amended): every Metrics field is a natural number at most 100, equal
to `int((count / total) * 100)` evaluated in binary64 arithmetic (which can
fall one below the exact `floor(count * 100 / total)`, as at
count = 29, total = 100), and every field is 0 when the total is 0. -/
theorem c2_metrics_range (hash : String → ℤ) (runs : List PersonaRun) :
    ((mkMetrics (simLoop hash runs.length runs 0 initCounts).2.1
        runs.length).openRate ≤ 100 ∧
     (mkMetrics (simLoop hash runs.length runs 0 initCounts).2.1
        runs.length).clickRate ≤ 100 ∧
     (mkMetrics (simLoop hash runs.length runs 0 initCounts).2.1
        runs.length).replyRate ≤ 100 ∧
     (mkMetrics (simLoop hash runs.length runs 0 initCounts).2.1
        runs.length).spamRate ≤ 100 ∧
     (mkMetrics (simLoop hash runs.length runs 0 initCounts).2.1
        runs.length).ignoreRate ≤ 100 ∧
     (mkMetrics (simLoop hash runs.length runs 0 initCounts).2.1
        runs.length).forwardRate ≤ 100 ∧
     (mkMetrics (simLoop hash runs.length runs 0 initCounts).2.1
        runs.length).readRate ≤ 100) ∧
    (runs = [] →
      mkMetrics (simLoop hash runs.length runs 0 initCounts).2.1 runs.length =
        ⟨0, 0, 0, 0, 0, 0, 0⟩) := by
  obtain ⟨l1, l2, l3, l4, l5, l6, l7⟩ :=
    simLoop_counts_le hash runs.length runs 0 initCounts
  simp only [initCounts, Nat.zero_add] at l1 l2 l3 l4 l5 l6 l7
  constructor
  · exact ⟨pyRate_le_100 l1, pyRate_le_100 l2, pyRate_le_100 l3, pyRate_le_100 l4,
      pyRate_le_100 l5, pyRate_le_100 l7, pyRate_le_100 l6⟩
  · intro h
    subst h
    rfl

/-- Witness for C2 (amended): the bound and the zero case hold on concrete
runs. -/
theorem c2_witness :
    (mkMetrics
      (simLoop (fun _ => 2)
        [(⟨⟨"p1", "n", "r", "c", "x", "y"⟩, none, none⟩ : PersonaRun)].length
        [(⟨⟨"p1", "n", "r", "c", "x", "y"⟩, none, none⟩ : PersonaRun)] 0
        initCounts).2.1
      [(⟨⟨"p1", "n", "r", "c", "x", "y"⟩, none, none⟩ : PersonaRun)].length).openRate
      ≤ 100 ∧
    mkMetrics (simLoop (fun _ => 2) ([] : List PersonaRun).length [] 0 initCounts).2.1
      ([] : List PersonaRun).length = ⟨0, 0, 0, 0, 0, 0, 0⟩ :=
  ⟨(c2_metrics_range (fun _ => 2)
      [(⟨⟨"p1", "n", "r", "c", "x", "y"⟩, none, none⟩ : PersonaRun)]).1.1,
   (c2_metrics_range (fun _ => 2) ([] : List PersonaRun)).2 rfl⟩

/-! ## C3: streaming protocol shape -/

/-- C3: a run over `n` personas emits exactly `n` progress events whose
`current` values are `1, ..., n` in order (each carrying `total = n`),
followed by exactly one result event, always last; for `n = 0` there are no
progress events and the single result event carries all-zero Metrics and no
Responses. -/
theorem c3_stream_shape (hash : String → ℤ) (runs : List PersonaRun)
    (io : InsightOutcome) :
    (run_simulation_stream hash runs io).take runs.length =
      (List.range runs.length).map (fun i => Event.progress (i + 1) runs.length) ∧
    (run_simulation_stream hash runs io).drop runs.length =
      [Event.result
        { metrics := mkMetrics (simLoop hash runs.length runs 0 initCounts).2.1
            runs.length
          insights := generate_insights io
            (mkMetrics (simLoop hash runs.length runs 0 initCounts).2.1 runs.length)
          responses := (simLoop hash runs.length runs 0 initCounts).1 }] ∧
    (runs = [] →
      mkMetrics (simLoop hash runs.length runs 0 initCounts).2.1 runs.length =
        ⟨0, 0, 0, 0, 0, 0, 0⟩ ∧
      (simLoop hash runs.length runs 0 initCounts).1 = []) := by
  have hev := simLoop_events hash runs.length runs 0 initCounts
  have hlen : (simLoop hash runs.length runs 0 initCounts).2.2.length = runs.length := by
    rw [hev, List.length_map, List.length_range]
  have hsplit : run_simulation_stream hash runs io =
      (simLoop hash runs.length runs 0 initCounts).2.2 ++
        [Event.result
          { metrics := mkMetrics (simLoop hash runs.length runs 0 initCounts).2.1
              runs.length
            insights := generate_insights io
              (mkMetrics (simLoop hash runs.length runs 0 initCounts).2.1 runs.length)
            responses := (simLoop hash runs.length runs 0 initCounts).1 }] := rfl
  refine ⟨?_, ?_, ?_⟩
  · rw [hsplit, List.take_left' hlen, hev]
    have hfun : (fun k => Event.progress (0 + 1 + k) runs.length) =
        (fun i => Event.progress (i + 1) runs.length) := by
      funext k
      congr 1
      omega
    rw [hfun]
  · rw [hsplit, List.drop_left' hlen]
  · intro h
    subst h
    exact ⟨rfl, rfl⟩

/-- Witness for C3 at the empty run: no progress events, one terminal result
event with all-zero Metrics and an empty Response list. -/
theorem c3_witness :
    (run_simulation_stream (fun _ => 0) [] InsightOutcome.raised).drop 0 =
      [Event.result
        { metrics := mkMetrics (simLoop (fun _ => 0) ([] : List PersonaRun).length [] 0
            initCounts).2.1 ([] : List PersonaRun).length
          insights := generate_insights InsightOutcome.raised
            (mkMetrics (simLoop (fun _ => 0) ([] : List PersonaRun).length [] 0
              initCounts).2.1 ([] : List PersonaRun).length)
          responses := (simLoop (fun _ => 0) ([] : List PersonaRun).length [] 0
            initCounts).1 }] ∧
    mkMetrics (simLoop (fun _ => 0) ([] : List PersonaRun).length [] 0 initCounts).2.1
      ([] : List PersonaRun).length = ⟨0, 0, 0, 0, 0, 0, 0⟩ ∧
    (simLoop (fun _ => 0) ([] : List PersonaRun).length [] 0 initCounts).1 = [] :=
  ⟨(c3_stream_shape (fun _ => 0) [] InsightOutcome.raised).2.1,
   ((c3_stream_shape (fun _ => 0) [] InsightOutcome.raised).2.2 rfl).1,
   ((c3_stream_shape (fun _ => 0) [] InsightOutcome.raised).2.2 rfl).2⟩

/-! ## C8: action counts sum (corrected — five action counts, not six) -/

/-- Counterexample to C8 as stated: the orchestrator maintains seven counters
(open, click, reply, spam, ignore, read, forward); in a one-persona run whose
persona clicks and hashes to a multiple of 5 the counters are
(0, 1, 0, 0, 0, 1, 1), so every choice of six of the seven counters sums to
at least 2, never to the total 1 — no "six action counts" sum to the total. -/
theorem c8_counterexample :
    (simLoop (fun _ => 0) 1
      [(⟨⟨"p0", "n", "r", "c", "x", "y"⟩, some ⟨some "opened", some "r", none⟩,
        some ⟨some "clicked", none, some "m"⟩⟩ : PersonaRun)] 0 initCounts).2.1 =
      ⟨0, 1, 0, 0, 0, 1, 1⟩ ∧
    (0 + 1 + 0 + 0 + 0 + 1 ≠ 1 ∧ 0 + 1 + 0 + 0 + 0 + 1 ≠ 1 ∧
     0 + 1 + 0 + 0 + 1 + 1 ≠ 1 ∧ 0 + 1 + 0 + 0 + 1 + 1 ≠ 1 ∧
     0 + 1 + 0 + 0 + 1 + 1 ≠ 1 ∧ 0 + 0 + 0 + 0 + 0 + 1 + 1 ≠ 1 ∧
     1 + 0 + 0 + 0 + 1 + 1 ≠ 1) ∧
    (simLoop (fun _ => 0) 1
      [(⟨⟨"p0", "n", "r", "c", "x", "y"⟩, some ⟨some "opened", some "r", none⟩,
        some ⟨some "clicked", none, some "m"⟩⟩ : PersonaRun)] 0 initCounts).1.length =
      1 := by decide

/-- C8 (amended): the sum of the five action counters (opened, clicked,
replied, spam, ignored) maintained by the orchestrator equals the total,
which equals the number of Responses, which equals the number of personas
supplied.  (The read and forward counters are auxiliary and overlap the
action counters, so no six counters sum to the total.) -/
theorem c8_action_counts_sum (hash : String → ℤ) (runs : List PersonaRun) :
    (simLoop hash runs.length runs 0 initCounts).2.1.open_count +
      (simLoop hash runs.length runs 0 initCounts).2.1.click_count +
      (simLoop hash runs.length runs 0 initCounts).2.1.reply_count +
      (simLoop hash runs.length runs 0 initCounts).2.1.spam_count +
      (simLoop hash runs.length runs 0 initCounts).2.1.ignore_count = runs.length ∧
    (simLoop hash runs.length runs 0 initCounts).1.length = runs.length := by
  have h := simLoop_five_sum hash runs.length runs 0 initCounts
  simp only [initCounts] at h ⊢
  exact ⟨by omega, simLoop_length hash runs.length runs 0 initCounts⟩

/-! ## C10: forward counter and forward rate -/

/-- C10: the forward counter is incremented only for responses whose action is
`clicked` and whose persona identifier hashes to a multiple of 5; hence
`forward_count ≤ click_count` and `forwardRate ≤ clickRate` in every
SimulationResult. -/
theorem c10_forward_le_click (hash : String → ℤ) (runs : List PersonaRun) :
    (∀ (c : Counts) (p : Persona) (r : Response),
      ¬(r.action = "clicked" ∧ hash p.id % 5 = 0) →
      (updateCounts hash c p r).forward_count = c.forward_count) ∧
    (simLoop hash runs.length runs 0 initCounts).2.1.forward_count ≤
      (simLoop hash runs.length runs 0 initCounts).2.1.click_count ∧
    (mkMetrics (simLoop hash runs.length runs 0 initCounts).2.1
        runs.length).forwardRate ≤
      (mkMetrics (simLoop hash runs.length runs 0 initCounts).2.1
        runs.length).clickRate := by
  have hle := simLoop_forward_le_click hash runs.length runs 0 initCounts
    (by simp [initCounts])
  refine ⟨?_, hle, pyRate_mono hle⟩
  intro c p r h
  rw [updateCounts_eq]
  simp only
  rw [if_neg h]
  omega

/-- Witness for C10 at a concrete input: an `ignored` response leaves the
forward counter untouched. -/
theorem c10_witness :
    (updateCounts (fun _ => 3) initCounts ⟨"p1", "n", "r", "c", "x", "y"⟩
      ⟨⟨"p1", "n", "r", "c", "x", "y"⟩, "ignored", "neutral", "ok", "ok"⟩).forward_count =
      initCounts.forward_count :=
  (c10_forward_le_click (fun _ => 3) []).1 initCounts ⟨"p1", "n", "r", "c", "x", "y"⟩
    ⟨⟨"p1", "n", "r", "c", "x", "y"⟩, "ignored", "neutral", "ok", "ok"⟩ (by decide)

/-! ## C6: insight fallback (corrected — partial oracle items are kept) -/

/-- Counterexample to C6 as stated: when the parsed `insights` list holds one
well-formed item followed by an item on which the loop raises, the already
converted oracle item is NOT discarded — the heuristics are appended after it,
yielding a hybrid result that differs from the pure heuristic output. -/
theorem c6_counterexample :
    generate_insights
        (InsightOutcome.parsedItems
          [InsightItem.good (some "positive") (some "A") (some "B"), InsightItem.bad])
        ⟨10, 0, 0, 15, 0, 0, 0⟩ =
      ⟨"positive", "A", "B"⟩ :: heuristicInsights ⟨10, 0, 0, 15, 0, 0, 0⟩ ∧
    generate_insights
        (InsightOutcome.parsedItems
          [InsightItem.good (some "positive") (some "A") (some "B"), InsightItem.bad])
        ⟨10, 0, 0, 15, 0, 0, 0⟩ ≠
      heuristicInsights ⟨10, 0, 0, 15, 0, 0, 0⟩ := by decide

/-- C6 (amended): when the Insight Generator's oracle path fails before any
item is converted — the oracle call raises, no JSON object is found, or both
parses fail — the returned list is exactly the heuristic output: one
`negative` insight iff the open rate is below 20, else one `positive` insight
iff it is above 40 (neither in [20, 40]), then one `warning` insight iff the
spam rate exceeds 10.  An exception while processing items instead keeps the
oracle items already converted and appends the heuristic insights after
them. -/
theorem c6_heuristic_fallback (m : Metrics) :
    (∀ outcome, outcome = InsightOutcome.raised ∨
        outcome = InsightOutcome.noJsonMatch ∨ outcome = InsightOutcome.parseFailed →
      generate_insights outcome m =
        (if m.openRate < 20 then
          [{ type := "negative", title := "Низкий Open Rate",
             description := "Тема письма недостаточно привлекательна для этой аудитории." }]
         else if m.openRate > 40 then
          [{ type := "positive", title := "Высокий Open Rate",
             description := "Тема письма работает отлично." }]
         else []) ++
        (if m.spamRate > 10 then
          [{ type := "warning", title := "Высокий риск спама",
             description := "Многие получатели отметили письмо как спам. Проверьте стоп-слова." }]
         else [])) ∧
    (∀ items acc, processItems items [] = (acc, false) →
      generate_insights (InsightOutcome.parsedItems items) m =
        acc ++ heuristicInsights m) := by
  constructor
  · intro outcome h
    rcases h with h | h | h <;> subst h <;> rfl
  · intro items acc h
    simp [generate_insights, h]

/-- Witness for C6 (amended), realizing the spec's fallback scenario: the
oracle call raises with `openRate = 10, spamRate = 15`, and exactly two
insights result — the negative open-rate insight then the spam warning; and a
first-item failure yields exactly the heuristics. -/
theorem c6_witness :
    generate_insights InsightOutcome.raised ⟨10, 0, 0, 15, 0, 0, 0⟩ =
      (if (10 : ℕ) < 20 then
        [{ type := "negative", title := "Низкий Open Rate",
           description := "Тема письма недостаточно привлекательна для этой аудитории." }]
       else if (10 : ℕ) > 40 then
        [{ type := "positive", title := "Высокий Open Rate",
           description := "Тема письма работает отлично." }]
       else []) ++
      (if (15 : ℕ) > 10 then
        [{ type := "warning", title := "Высокий риск спама",
           description := "Многие получатели отметили письмо как спам. Проверьте стоп-слова." }]
       else []) ∧
    generate_insights (InsightOutcome.parsedItems [InsightItem.bad])
        ⟨10, 0, 0, 15, 0, 0, 0⟩ =
      [] ++ heuristicInsights ⟨10, 0, 0, 15, 0, 0, 0⟩ :=
  ⟨(c6_heuristic_fallback ⟨10, 0, 0, 15, 0, 0, 0⟩).1 InsightOutcome.raised
      (Or.inl rfl),
   (c6_heuristic_fallback ⟨10, 0, 0, 15, 0, 0, 0⟩).2 [InsightItem.bad] [] (by decide)⟩
